import Mathlib

/-!
Verification development for the football-link-sprint repository.

The gameplay core is embedded shallowly:
* JavaScript strings are modelled as lists of Unicode code points
  (`Str := List Nat`); all text handled by the game lives in the Basic
  Multilingual Plane, where JS `.length` agrees with the code-point count.
* `String.prototype.toLowerCase` is modelled on the ASCII range (the game's
  strings are Arabic, which is caseless, plus ASCII model identifiers).
* The Gemini backend is modelled as an oracle `respond : Str → CallOutcome α`
  mapping a model identifier to that call's outcome; `generateWithFallback`
  additionally records the trace of calls and delays it performs.
* The React session state (App.tsx) is modelled as a labelled transition
  system `Step` over `AppState`; event guards come from the render
  conditions of the components that can fire each handler, and in-flight
  generation requests are tracked by a `pending` field (the app issues at
  most one request at a time, per the serialized event model).
-/

/-- JS strings as lists of Unicode code points. -/
abbrev Str := List Nat

/-- The JS whitespace set recognised by `String.prototype.trim`
(WhiteSpace ∪ LineTerminator). -/
def isJsWhitespace (c : Nat) : Bool :=
  [0x9, 0xA, 0xB, 0xC, 0xD, 0x20, 0xA0, 0x1680,
   0x2000, 0x2001, 0x2002, 0x2003, 0x2004, 0x2005, 0x2006, 0x2007,
   0x2008, 0x2009, 0x200A, 0x2028, 0x2029, 0x202F, 0x205F, 0x3000,
   0xFEFF].contains c

/-- `String.prototype.trim`: strip leading and trailing whitespace. -/
def jsTrim (s : Str) : Str :=
  ((s.dropWhile isJsWhitespace).reverse.dropWhile isJsWhitespace).reverse

/-- `String.prototype.toLowerCase`, modelled on the ASCII range. -/
def toLowerJs (c : Nat) : Nat :=
  if 0x41 ≤ c ∧ c ≤ 0x5A then c + 32 else c

/-- The three letter-unification regex replacements of `normalizeArabic`:
`[أإآ] → ا`, `ة → ه`, `ى → ي`. -/
def unifyLetter (c : Nat) : Nat :=
  if c = 0x623 ∨ c = 0x625 ∨ c = 0x622 then 0x627
  else if c = 0x629 then 0x647
  else if c = 0x649 then 0x64A
  else c

/-- The diacritic range stripped by `normalizeArabic`: `[ً-ٟ]`. -/
def isDiacritic (c : Nat) : Bool :=
  0x64B ≤ c ∧ c ≤ 0x65F

/-- The `replace(/^(ال)/, '')` step: strip one leading definite article. -/
def stripAl (s : Str) : Str :=
  if s.take 2 = [0x627, 0x644] then s.drop 2 else s

/-- `normalizeArabic` from the Gemini service module: guard on the empty
string, then trim, lowercase, unify letter variants, strip diacritics,
strip a single leading `ال`. -/
def normalizeArabic (s : Str) : Str :=
  if s = [] then []
  else stripAl ((((jsTrim s).map toLowerJs).map unifyLetter).filter
    (fun c => !isDiacritic c))

/-- `String.prototype.startsWith` on code-point lists. -/
def jsStartsWith : Str → Str → Bool
  | _, [] => true
  | [], _ :: _ => false
  | h :: t, p :: ps => h == p && jsStartsWith t ps

/-- `String.prototype.includes`: `jsIncludes hay pat` holds when `pat`
occurs contiguously inside `hay`. -/
def jsIncludes (hay pat : Str) : Bool :=
  jsStartsWith hay pat ||
    match hay with
    | [] => false
    | _ :: t => jsIncludes t pat

/-- `Array.prototype.slice(-n)`: the last at-most-`n` elements. -/
def jsSliceLast (n : Nat) (l : List α) : List α :=
  l.drop (l.length - n)

def successReason : Str := [0x625, 0x62c, 0x627, 0x628, 0x629, 0x20, 0x635, 0x62d, 0x64a, 0x62d, 0x629, 0x21]

def busyReason : Str := [0x639, 0x630, 0x631, 0x627, 0x64b, 0x60c, 0x20, 0x627, 0x644, 0x62e, 0x62f, 0x645, 0x629, 0x20, 0x645, 0x634, 0x63a, 0x648, 0x644, 0x629, 0x20, 0x62c, 0x62f, 0x627, 0x64b, 0x2e, 0x20, 0x62d, 0x627, 0x648, 0x644, 0x20, 0x645, 0x631, 0x629, 0x20, 0x623, 0x62e, 0x631, 0x649, 0x2e]

def startErrMsg : Str := [0x627, 0x644, 0x62e, 0x648, 0x627, 0x62f, 0x645, 0x20, 0x645, 0x634, 0x63a, 0x648, 0x644, 0x629, 0x20, 0x62d, 0x627, 0x644, 0x64a, 0x627, 0x64b, 0x20, 0x623, 0x648, 0x20, 0x627, 0x646, 0x62a, 0x647, 0x62a, 0x20, 0x62d, 0x635, 0x629, 0x20, 0x627, 0x644, 0x627, 0x633, 0x62a, 0x62e, 0x62f, 0x627, 0x645, 0x2e, 0x20, 0x64a, 0x631, 0x62c, 0x649, 0x20, 0x627, 0x644, 0x645, 0x62d, 0x627, 0x648, 0x644, 0x629, 0x20, 0x644, 0x627, 0x62d, 0x642, 0x627, 0x64b, 0x2e]

def nextErrMsg : Str := [0x62d, 0x62f, 0x62b, 0x20, 0x62e, 0x637, 0x623, 0x20, 0x623, 0x62b, 0x646, 0x627, 0x621, 0x20, 0x62a, 0x62d, 0x645, 0x64a, 0x644, 0x20, 0x627, 0x644, 0x633, 0x624, 0x627, 0x644, 0x20, 0x627, 0x644, 0x62a, 0x627, 0x644, 0x64a, 0x2e]

def PRIMARY_MODEL : Str := [0x67, 0x65, 0x6d, 0x69, 0x6e, 0x69, 0x2d, 0x32, 0x2e, 0x35, 0x2d, 0x66, 0x6c, 0x61, 0x73, 0x68]

def FALLBACK_MODEL : Str := [0x67, 0x65, 0x6d, 0x69, 0x6e, 0x69, 0x2d, 0x66, 0x6c, 0x61, 0x73, 0x68, 0x2d, 0x6c, 0x69, 0x74, 0x65, 0x2d, 0x6c, 0x61, 0x74, 0x65, 0x73, 0x74]

/-- Outcome of a single `ai.models.generateContent` call (with the
`JSON.parse` of the response folded in): parsed success, a rate-limit
(429) error, or any other error.  Errors carry an opaque identifier so
propagation can be tracked. -/
inductive CallOutcome (α : Type) where
  | ok (a : α)
  | rateLimited (e : Nat)
  | failed (e : Nat)
deriving DecidableEq

/-- Observable actions of `generateWithFallback`: a backend call against a
model, or a `setTimeout` delay in milliseconds. -/
inductive GenEvent where
  | call (model : Str)
  | delayMs (n : Nat)
deriving DecidableEq

/-- The model identifiers of the calls in a trace. -/
def callsOf (tr : List GenEvent) : List Str :=
  tr.filterMap fun e =>
    match e with
    | .call m => some m
    | .delayMs _ => none

/-- `generateWithFallback` from the Gemini service module: try the primary
model; on a 429 outcome wait 1000 ms and try the fallback model once; any
non-429 error is thrown immediately, and if the fallback also fails its
error is thrown.  Returns the result together with the trace of calls and
delays performed. -/
def generateWithFallback (respond : Str → CallOutcome α) :
    Except Nat α × List GenEvent :=
  match respond PRIMARY_MODEL with
  | .ok a => (.ok a, [.call PRIMARY_MODEL])
  | .failed e => (.error e, [.call PRIMARY_MODEL])
  | .rateLimited _ =>
    match respond FALLBACK_MODEL with
    | .ok a =>
        (.ok a, [.call PRIMARY_MODEL, .delayMs 1000, .call FALLBACK_MODEL])
    | .failed e =>
        (.error e, [.call PRIMARY_MODEL, .delayMs 1000, .call FALLBACK_MODEL])
    | .rateLimited e =>
        (.error e, [.call PRIMARY_MODEL, .delayMs 1000, .call FALLBACK_MODEL,
          .delayMs 1000])

/-- The `excludeEntities.slice(-20)` step of `generateChallenge`: the
exclusion names embedded (comma-joined) into the generation prompt. -/
def promptExclusions (excludeEntities : List Str) : List Str :=
  jsSliceLast 20 excludeEntities

/-- Parsed shape of a remote validation response. -/
structure RemoteValidation where
  isValid : Bool
  reason : Str
  correctAnswer : Option Str
deriving DecidableEq

/-- Result shape of `validateAnswer`. -/
structure VResult where
  isValid : Bool
  reason : Str
  correctAnswer : Option Str
deriving DecidableEq

/-- The local-tier `isMatch` predicate of `validateAnswer`: some accepted
answer whose normalization equals the normalized input, or contains it /
is contained in it with the contained side longer than 3. -/
def localMatch (userAnswer : Str) (possibleAnswers : List Str) : Bool :=
  possibleAnswers.any fun ans =>
    let normAns := normalizeArabic ans
    let normalizedInput := normalizeArabic userAnswer
    normAns == normalizedInput ||
    (decide (normAns.length > 3) && jsIncludes normalizedInput normAns) ||
    (decide (normalizedInput.length > 3) && jsIncludes normAns normalizedInput)

/-- `validateAnswer` from the Gemini service module: if `possibleAnswers`
is non-empty and the local tier matches, answer success with a fixed
reason and no backend traffic; otherwise call the backend through
`generateWithFallback`, absorbing any thrown error into a fixed
"service busy" incorrect result.  Returns the result together with the
backend trace (empty exactly when no remote call was made). -/
def validateAnswer (cardA cardB userAnswer : Str) (possibleAnswers : List Str)
    (respond : Str → CallOutcome RemoteValidation) : VResult × List GenEvent :=
  if possibleAnswers ≠ [] ∧ localMatch userAnswer possibleAnswers = true then
    ({ isValid := true, reason := successReason, correctAnswer := none }, [])
  else
    match generateWithFallback respond with
    | (.ok d, tr) =>
        ({ isValid := d.isValid, reason := d.reason,
           correctAnswer := d.correctAnswer }, tr)
    | (.error _, tr) =>
        ({ isValid := false, reason := busyReason, correctAnswer := none }, tr)

inductive EntityType where
  | TEAM | PLAYER | COACH | TROPHY | NATIONAL_TEAM | YEAR
deriving DecidableEq

inductive Difficulty where
  | EASY | MEDIUM | HARD
deriving DecidableEq

inductive GameStatus where
  | IDLE | LOADING_CHALLENGE | PLAYING | VALIDATING | GAME_OVER
deriving DecidableEq

/-- `TIME_LIMITS` from App.tsx. -/
def TIME_LIMITS : Difficulty → Nat
  | .EASY => 90
  | .MEDIUM => 60
  | .HARD => 45

structure GameEntity where
  name : Str
  etype : EntityType
  description : Option Str := none
  imageUrl : Option Str := none
  color : Option Str := none
deriving DecidableEq

structure Challenge where
  id : Str
  cardA : GameEntity
  cardB : GameEntity
  possibleAnswers : Option (List Str) := none
deriving DecidableEq

structure HistoryEntry where
  question : Str
  answer : Str
  isCorrect : Bool
deriving DecidableEq

/-- The `GameState` record of types.ts. -/
structure GameState where
  status : GameStatus
  score : Nat
  timeLeft : Nat
  currentChallenge : Option Challenge
  message : Option Str
  difficulty : Difficulty
  history : List HistoryEntry
  seenEntities : List Str
deriving DecidableEq

/-- A generation request in flight: the initial one issued by `startGame`,
or a next-round one issued by `handleNextRound` carrying the
`seenEntities` list it passed to `generateChallenge`. -/
inductive PendingReq where
  | start
  | next (excludeEntities : List Str)
deriving DecidableEq

/-- The App component's state: the game state plus the `highScore` and
`error` hooks, and the in-flight generation request (modelling device for
the awaited `generateChallenge` call). -/
structure AppState where
  gameState : GameState
  highScore : Nat
  error : Option Str
  pending : Option PendingReq
deriving DecidableEq

/-- The body of the timer interval callback in App.tsx: at `timeLeft ≤ 1`
zero the clock and end the game in the same update, otherwise decrement. -/
def tickUpdate (gs : GameState) : GameState :=
  if gs.timeLeft ≤ 1 then { gs with timeLeft := 0, status := .GAME_OVER }
  else { gs with timeLeft := gs.timeLeft - 1 }

/-- The `setDifficulty` handler of App.tsx (no status guard in the
handler itself; only the IDLE screen renders the buttons that call it). -/
def setDifficultyFn (level : Difficulty) (gs : GameState) : GameState :=
  { gs with difficulty := level }

/-- Event labels of the session transition system. -/
inductive Label where
  | tick
  | startBegin
  | startSuccess (ch : Challenge)
  | startFail
  | nextBegin (bonus : Nat)
  | nextSuccess (ch : Challenge)
  | nextFail
  | reset
  | setDiff (level : Difficulty)

/-- The labelled transition relation of the App component.  Guards are the
conditions under which each handler can run: the interval exists only
while `status = PLAYING ∧ timeLeft > 0`; `startGame` is reachable from the
IDLE and GAME_OVER screens; `handleNextRound` from the PLAYING screen;
`resetGame` from the GAME_OVER screen; the difficulty buttons render only
on the IDLE screen.  Continuations of an awaited `generateChallenge` call
fire on the matching `pending` token. -/
inductive Step : AppState → Label → AppState → Prop where
  | tick (s : AppState)
      (h1 : s.gameState.status = .PLAYING) (h2 : 0 < s.gameState.timeLeft) :
      Step s .tick { s with gameState := tickUpdate s.gameState }
  | startBegin (s : AppState)
      (h : s.gameState.status = .IDLE ∨ s.gameState.status = .GAME_OVER) :
      Step s .startBegin
        { s with
          error := none,
          pending := some .start,
          gameState := { s.gameState with
                         status := .LOADING_CHALLENGE,
                         score := 0,
                         timeLeft := TIME_LIMITS s.gameState.difficulty,
                         history := [],
                         seenEntities := [] } }
  | startSuccess (s : AppState) (ch : Challenge)
      (h : s.pending = some .start) :
      Step s (.startSuccess ch)
        { s with
          pending := none,
          gameState := { s.gameState with
                         status := .PLAYING,
                         currentChallenge := some ch,
                         seenEntities := [ch.cardA.name, ch.cardB.name] } }
  | startFail (s : AppState) (h : s.pending = some .start) :
      Step s .startFail
        { s with
          pending := none,
          error := some startErrMsg,
          gameState := { s.gameState with status := .IDLE } }
  | nextBegin (s : AppState) (bonus : Nat)
      (h : s.gameState.status = .PLAYING) :
      Step s (.nextBegin bonus)
        { s with
          error := none,
          pending := some (.next s.gameState.seenEntities),
          gameState := { s.gameState with
                         score := if 0 < bonus then s.gameState.score + 1
                                  else s.gameState.score,
                         timeLeft := s.gameState.timeLeft + bonus,
                         status := .LOADING_CHALLENGE } }
  | nextSuccess (s : AppState) (ch : Challenge) (ex : List Str)
      (h : s.pending = some (.next ex)) :
      Step s (.nextSuccess ch)
        { s with
          pending := none,
          gameState := { s.gameState with
                         status := .PLAYING,
                         currentChallenge := some ch,
                         seenEntities := s.gameState.seenEntities ++
                           [ch.cardA.name, ch.cardB.name] } }
  | nextFail (s : AppState) (ex : List Str)
      (h : s.pending = some (.next ex)) :
      Step s .nextFail
        { s with
          pending := none,
          error := some nextErrMsg,
          gameState := { s.gameState with status := .GAME_OVER } }
  | reset (s : AppState) (h : s.gameState.status = .GAME_OVER) :
      Step s .reset
        { s with
          error := none,
          highScore := max s.highScore s.gameState.score,
          gameState := { s.gameState with status := .IDLE } }
  | setDiff (s : AppState) (level : Difficulty)
      (h : s.gameState.status = .IDLE) :
      Step s (.setDiff level)
        { s with gameState := setDifficultyFn level s.gameState }

/-- The initial `useState` value in App.tsx. -/
def initialState : AppState :=
  { gameState :=
      { status := .IDLE, score := 0, timeLeft := TIME_LIMITS .MEDIUM,
        currentChallenge := none, message := none, difficulty := .MEDIUM,
        history := [], seenEntities := [] },
    highScore := 0, error := none, pending := none }

/-- States reachable from the initial state. -/
inductive Reachable : AppState → Prop where
  | init : Reachable initialState
  | step {s s' : AppState} {l : Label} :
      Reachable s → Step s l s' → Reachable s'

/-- The arguments handed to `validateAnswer` by the GameScreen submit
handler. -/
structure ValidateCall where
  cardA : Str
  cardB : Str
  userAnswer : Str
  possibleAnswers : List Str
deriving DecidableEq

/-- GameScreen component state touched by `handleSubmit`. -/
structure ScreenState where
  input : Str
  validating : Bool
  feedbackSuccess : Option Bool
  feedbackMsg : Str
deriving DecidableEq

/-- The synchronous prefix of `handleSubmit` in GameScreen.tsx: bail out
when the trimmed input is empty or a validation is already in flight;
otherwise raise the validating flag, clear feedback, and issue the
validation call on the raw input. -/
def handleSubmit (gs : GameState) (challenge : Challenge)
    (ss : ScreenState) : GameState × ScreenState × Option ValidateCall :=
  if jsTrim ss.input = [] ∨ ss.validating = true then (gs, ss, none)
  else
    (gs,
     { ss with
       validating := true,
       feedbackSuccess := none,
       feedbackMsg := [] },
     some { cardA := challenge.cardA.name,
            cardB := challenge.cardB.name,
            userAnswer := ss.input,
            possibleAnswers := challenge.possibleAnswers.getD [] })

/-! ### Helper lemmas about the normalizer -/

theorem map_fix_of_mem {f : Nat → Nat} {l : Str}
    (h : ∀ c ∈ l, f c = c) : l.map f = l := by
  induction l with
  | nil => rfl
  | cons a t ih =>
    simp only [List.map_cons, List.cons.injEq]
    exact ⟨h a (List.mem_cons_self a t), ih fun c hc => h c (List.mem_cons_of_mem a hc)⟩

theorem stripAl_subset {l : Str} : stripAl l ⊆ l := by
  unfold stripAl
  split
  · exact List.drop_subset 2 l
  · exact fun _ h => h

theorem toLowerJs_after (c : Nat) :
    toLowerJs (unifyLetter (toLowerJs c)) = unifyLetter (toLowerJs c) := by
  unfold toLowerJs unifyLetter
  split_ifs <;> omega

theorem unifyLetter_idem (c : Nat) :
    unifyLetter (unifyLetter c) = unifyLetter c := by
  unfold unifyLetter
  split_ifs <;> omega

theorem mem_normalizeArabic {c : Nat} {s : Str} (hc : c ∈ normalizeArabic s) :
    (∃ d, c = unifyLetter (toLowerJs d)) ∧ isDiacritic c = false := by
  unfold normalizeArabic at hc
  split at hc
  · exact absurd hc (List.not_mem_nil c)
  · have h1 := stripAl_subset hc
    rw [List.mem_filter] at h1
    obtain ⟨h2, h3⟩ := h1
    rw [List.mem_map] at h2
    obtain ⟨d1, hd1, hd2⟩ := h2
    rw [List.mem_map] at hd1
    obtain ⟨d0, _, hd0⟩ := hd1
    refine ⟨⟨d0, ?_⟩, ?_⟩
    · rw [← hd0] at hd2
      exact hd2.symm
    · simpa using h3

theorem normalizeArabic_stable (x : Str)
    (h1 : jsTrim (normalizeArabic x) = normalizeArabic x)
    (h2 : (normalizeArabic x).take 2 ≠ [0x627, 0x644]) :
    normalizeArabic (normalizeArabic x) = normalizeArabic x := by
  set y := normalizeArabic x with hy
  by_cases hnil : y = []
  · rw [hnil]
    rfl
  · have hmem : ∀ c ∈ y, (∃ d, c = unifyLetter (toLowerJs d)) ∧
        isDiacritic c = false := by
      intro c hc
      rw [hy] at hc
      exact mem_normalizeArabic hc
    have hmap1 : y.map toLowerJs = y := by
      refine map_fix_of_mem fun c hc => ?_
      obtain ⟨⟨d, hd⟩, _⟩ := hmem c hc
      rw [hd]
      exact toLowerJs_after d
    have hmap2 : y.map unifyLetter = y := by
      refine map_fix_of_mem fun c hc => ?_
      obtain ⟨⟨d, hd⟩, _⟩ := hmem c hc
      rw [hd]
      exact unifyLetter_idem (toLowerJs d)
    have hfil : y.filter (fun c => !isDiacritic c) = y := by
      refine List.filter_eq_self.mpr fun c hc => ?_
      obtain ⟨_, hdia⟩ := hmem c hc
      simp [hdia]
    show normalizeArabic y = y
    unfold normalizeArabic
    rw [if_neg hnil, h1, hmap1, hmap2, hfil]
    unfold stripAl
    rw [if_neg h2]

/-! ### Invariants of the session state machine -/

/-- Session invariant: a PLAYING state has time on the clock and a loaded
challenge, the VALIDATING status value is never assigned, and a pending
generation request only exists while loading, with time on the clock. -/
def SessionInv (s : AppState) : Prop :=
  (s.gameState.status = .PLAYING → 0 < s.gameState.timeLeft)
  ∧ (s.gameState.status = .PLAYING → s.gameState.currentChallenge.isSome = true)
  ∧ s.gameState.status ≠ .VALIDATING
  ∧ (∀ p, s.pending = some p →
      s.gameState.status = .LOADING_CHALLENGE ∧ 0 < s.gameState.timeLeft)

theorem inv_init : SessionInv initialState := by
  refine ⟨?_, ?_, ?_, ?_⟩ <;> simp [SessionInv, initialState]

theorem tickUpdate_cases (gs : GameState) :
    (gs.timeLeft ≤ 1 ∧
      tickUpdate gs = { gs with timeLeft := 0, status := .GAME_OVER })
    ∨ (1 < gs.timeLeft ∧
      tickUpdate gs = { gs with timeLeft := gs.timeLeft - 1 }) := by
  unfold tickUpdate
  by_cases h : gs.timeLeft ≤ 1
  · exact Or.inl ⟨h, if_pos h⟩
  · exact Or.inr ⟨by omega, if_neg h⟩

theorem inv_step {s s' : AppState} {l : Label}
    (hInv : SessionInv s) (h : Step s l s') : SessionInv s' := by
  obtain ⟨h1, h2, h3, h4⟩ := hInv
  cases h with
  | tick hp ht =>
    rcases tickUpdate_cases s.gameState with ⟨hle, heq⟩ | ⟨hgt, heq⟩ <;> rw [heq]
    · refine ⟨by simp, by simp, by simp, fun p hpend => ?_⟩
      have hl := (h4 p hpend).1
      rw [hp] at hl
      exact absurd hl (by simp)
    · refine ⟨?_, ?_, ?_, fun p hpend => ?_⟩
      · intro _
        show 0 < s.gameState.timeLeft - 1
        omega
      · intro _
        exact h2 hp
      · show s.gameState.status ≠ .VALIDATING
        exact h3
      · have hl := (h4 p hpend).1
        rw [hp] at hl
        exact absurd hl (by simp)
  | startBegin hs =>
    refine ⟨by simp, by simp, by simp, fun p hpend => ⟨rfl, ?_⟩⟩
    show 0 < TIME_LIMITS s.gameState.difficulty
    cases s.gameState.difficulty <;> decide
  | startSuccess ch hpend =>
    refine ⟨?_, by simp, by simp, fun p hpend' => Option.noConfusion hpend'⟩
    intro _
    show 0 < s.gameState.timeLeft
    exact (h4 .start hpend).2
  | startFail hpend =>
    exact ⟨by simp, by simp, by simp, fun p hpend' => Option.noConfusion hpend'⟩
  | nextBegin bonus hs =>
    refine ⟨by simp, by simp, by simp, fun p hpend => ⟨rfl, ?_⟩⟩
    show 0 < s.gameState.timeLeft + bonus
    have := h1 hs
    omega
  | nextSuccess ch ex hpend =>
    refine ⟨?_, by simp, by simp, fun p hpend' => Option.noConfusion hpend'⟩
    intro _
    show 0 < s.gameState.timeLeft
    exact (h4 (.next ex) hpend).2
  | nextFail ex hpend =>
    exact ⟨by simp, by simp, by simp, fun p hpend' => Option.noConfusion hpend'⟩
  | reset hs =>
    refine ⟨by simp, by simp, by simp, fun p hpend => ?_⟩
    have hl := (h4 p hpend).1
    rw [hs] at hl
    exact absurd hl (by simp)
  | setDiff level hs =>
    exact ⟨fun hq => h1 hq, fun hq => h2 hq, h3, fun p hpend => h4 p hpend⟩

theorem reachable_inv {s : AppState} (h : Reachable s) : SessionInv s := by
  induction h with
  | init => exact inv_init
  | step _ hstep ih => exact inv_step ih hstep

/-! ### A concrete session run used by witnesses and counterexamples -/

def chTest : Challenge :=
  { id := [0x30],
    cardA := { name := [0x61], etype := .TEAM },
    cardB := { name := [0x62], etype := .PLAYER } }

/-- After pressing start on the IDLE screen. -/
def sLoad : AppState :=
  { initialState with
    error := none,
    pending := some .start,
    gameState := { initialState.gameState with
                   status := .LOADING_CHALLENGE,
                   score := 0,
                   timeLeft := TIME_LIMITS initialState.gameState.difficulty,
                   history := [],
                   seenEntities := [] } }

/-- After the initial generation succeeds. -/
def sPlay : AppState :=
  { sLoad with
    pending := none,
    gameState := { sLoad.gameState with
                   status := .PLAYING,
                   currentChallenge := some chTest,
                   seenEntities := [chTest.cardA.name, chTest.cardB.name] } }

/-- After the initial generation fails instead. -/
def sFail : AppState :=
  { sLoad with
    pending := none,
    error := some startErrMsg,
    gameState := { sLoad.gameState with status := .IDLE } }

/-- After a skip (`onNextRound(0)`) from `sPlay`. -/
def sLoad2 : AppState :=
  { sPlay with
    error := none,
    pending := some (.next sPlay.gameState.seenEntities),
    gameState := { sPlay.gameState with
                   score := if 0 < 0 then sPlay.gameState.score + 1
                            else sPlay.gameState.score,
                   timeLeft := sPlay.gameState.timeLeft + 0,
                   status := .LOADING_CHALLENGE } }

/-- After the next-round generation fails. -/
def sOver : AppState :=
  { sLoad2 with
    pending := none,
    error := some nextErrMsg,
    gameState := { sLoad2.gameState with status := .GAME_OVER } }

/-- One timer tick taken from `sPlay`. -/
def sTick : AppState :=
  { sPlay with gameState := tickUpdate sPlay.gameState }

theorem reach_sLoad : Reachable sLoad :=
  Reachable.step Reachable.init (Step.startBegin initialState (Or.inl rfl))

theorem reach_sPlay : Reachable sPlay :=
  Reachable.step reach_sLoad (Step.startSuccess sLoad chTest rfl)

theorem reach_sLoad2 : Reachable sLoad2 :=
  Reachable.step reach_sPlay (Step.nextBegin sPlay 0 rfl)

theorem reach_sOver : Reachable sOver :=
  Reachable.step reach_sLoad2
    (Step.nextFail sLoad2 sPlay.gameState.seenEntities rfl)

/-! ### Claims -/

/-- C1: while status is PLAYING each timer tick decrements `timeLeft` by
exactly 1; the tick taken at `timeLeft = 1` (the one that reaches 0) sets
status to GAME_OVER in the same update; no reachable state is PLAYING with
`timeLeft = 0`; and no tick can fire once status is GAME_OVER. -/
theorem C1_timer_semantics :
    (∀ s, Reachable s → s.gameState.status = .PLAYING →
      0 < s.gameState.timeLeft)
    ∧ (∀ s s', Step s .tick s' →
        s'.gameState.timeLeft = s.gameState.timeLeft - 1
        ∧ (s'.gameState.status = .GAME_OVER ↔ s.gameState.timeLeft = 1)
        ∧ (1 < s.gameState.timeLeft → s'.gameState.status = .PLAYING))
    ∧ (∀ s s', s.gameState.status = .GAME_OVER → ¬ Step s .tick s') := by
  refine ⟨fun s hr => (reachable_inv hr).1, ?_, ?_⟩
  · intro s s' hstep
    cases hstep with
    | tick hp ht =>
      rcases tickUpdate_cases s.gameState with ⟨hle, heq⟩ | ⟨hgt, heq⟩ <;>
        rw [heq]
      · have h1 : s.gameState.timeLeft = 1 := by omega
        refine ⟨?_, ?_, ?_⟩
        · show (0 : Nat) = s.gameState.timeLeft - 1
          omega
        · exact ⟨fun _ => h1, fun _ => rfl⟩
        · intro hq
          exact absurd hq (by omega)
      · refine ⟨rfl, ?_, fun _ => hp⟩
        constructor
        · intro hq
          have hq' : s.gameState.status = .GAME_OVER := hq
          rw [hp] at hq'
          exact absurd hq' (by simp)
        · intro hq
          exact absurd hq (by omega)
  · intro s s' hover hstep
    cases hstep with
    | tick hp ht =>
      rw [hover] at hp
      exact absurd hp (by simp)

theorem C1_timer_semantics_witness :
    0 < sPlay.gameState.timeLeft
    ∧ sTick.gameState.timeLeft = sPlay.gameState.timeLeft - 1
    ∧ ¬ Step sOver .tick sTick :=
  ⟨C1_timer_semantics.1 sPlay reach_sPlay rfl,
   (C1_timer_semantics.2.1 sPlay sTick (Step.tick sPlay rfl (by decide))).1,
   C1_timer_semantics.2.2 sOver sTick rfl⟩

/-- C2 fails as stated: `currentChallenge` is never cleared, so a reachable
GAME_OVER state still holds the last challenge, refuting the claimed
"present iff status ∈ {PLAYING, VALIDATING}". -/
theorem C2_counterexample :
    Reachable sOver
    ∧ ¬ (sOver.gameState.currentChallenge.isSome = true ↔
        (sOver.gameState.status = .PLAYING ∨
         sOver.gameState.status = .VALIDATING)) :=
  ⟨reach_sOver, by decide⟩

/-- C2 (amended): in every reachable state, PLAYING implies a challenge is
present, and the VALIDATING status value is never assigned; the converse
fails because `currentChallenge` is never reset on leaving PLAYING. -/
theorem C2_challenge_presence :
    ∀ s, Reachable s →
      (s.gameState.status = .PLAYING →
        s.gameState.currentChallenge.isSome = true)
      ∧ s.gameState.status ≠ .VALIDATING :=
  fun s hr => ⟨(reachable_inv hr).2.1, (reachable_inv hr).2.2.1⟩

theorem C2_challenge_presence_witness :
    sPlay.gameState.currentChallenge.isSome = true
    ∧ sOver.gameState.status ≠ .VALIDATING :=
  ⟨(C2_challenge_presence sPlay reach_sPlay).1 rfl,
   (C2_challenge_presence sOver reach_sOver).2⟩

/-- C3 fails as stated: stripping a single leading definite article makes
the normalizer non-idempotent, e.g. on the string `الال`. -/
theorem C3_counterexample :
    normalizeArabic (normalizeArabic [0x627, 0x644, 0x627, 0x644]) ≠
      normalizeArabic [0x627, 0x644, 0x627, 0x644] := by
  decide

/-- C3 (amended): `normalizeArabic` is idempotent on exactly the inputs
whose normalization is already trimmed and does not itself start with the
definite article `ال`. -/
theorem C3_normalize_idempotent (x : Str)
    (h1 : jsTrim (normalizeArabic x) = normalizeArabic x)
    (h2 : (normalizeArabic x).take 2 ≠ [0x627, 0x644]) :
    normalizeArabic (normalizeArabic x) = normalizeArabic x :=
  normalizeArabic_stable x h1 h2

theorem C3_normalize_idempotent_witness :
    jsTrim (normalizeArabic [0x645, 0x633]) = normalizeArabic [0x645, 0x633]
    ∧ (normalizeArabic [0x645, 0x633]).take 2 ≠ [0x627, 0x644]
    ∧ normalizeArabic (normalizeArabic [0x645, 0x633]) =
        normalizeArabic [0x645, 0x633] :=
  ⟨by decide, by decide,
   C3_normalize_idempotent [0x645, 0x633] (by decide) (by decide)⟩

/-- C4: with a non-empty accepted-answer list, a normalized equality match,
or a containment match whose contained side is longer than 3, makes
`validateAnswer` return success with the fixed reason and perform no
backend call (empty trace, independent of the backend oracle). -/
theorem C4_local_match_short_circuits
    (cardA cardB userAnswer : Str) (possibleAnswers : List Str)
    (respond : Str → CallOutcome RemoteValidation)
    (hne : possibleAnswers ≠ [])
    (hmatch : ∃ ans ∈ possibleAnswers,
      normalizeArabic ans = normalizeArabic userAnswer
      ∨ ((normalizeArabic ans).length > 3 ∧
          jsIncludes (normalizeArabic userAnswer) (normalizeArabic ans) = true)
      ∨ ((normalizeArabic userAnswer).length > 3 ∧
          jsIncludes (normalizeArabic ans) (normalizeArabic userAnswer) = true)) :
    validateAnswer cardA cardB userAnswer possibleAnswers respond =
      ({ isValid := true, reason := successReason, correctAnswer := none },
       []) := by
  have hlm : localMatch userAnswer possibleAnswers = true := by
    unfold localMatch
    rw [List.any_eq_true]
    obtain ⟨ans, hans, hcase⟩ := hmatch
    refine ⟨ans, hans, ?_⟩
    show (normalizeArabic ans == normalizeArabic userAnswer ||
      (decide ((normalizeArabic ans).length > 3) &&
        jsIncludes (normalizeArabic userAnswer) (normalizeArabic ans)) ||
      (decide ((normalizeArabic userAnswer).length > 3) &&
        jsIncludes (normalizeArabic ans) (normalizeArabic userAnswer)))
      = true
    rcases hcase with h | ⟨h1, h2⟩ | ⟨h1, h2⟩
    · simp [h]
    · simp [h1, h2]
    · simp [h1, h2]
  unfold validateAnswer
  rw [if_pos ⟨hne, hlm⟩]

theorem C4_local_match_short_circuits_witness :
    validateAnswer [0x61] [0x62] [0x645, 0x64a, 0x633, 0x64a]
      [[0x645, 0x64a, 0x633, 0x64a]] (fun _ => .failed 0) =
      ({ isValid := true, reason := successReason, correctAnswer := none },
       []) :=
  C4_local_match_short_circuits [0x61] [0x62] [0x645, 0x64a, 0x633, 0x64a]
    [[0x645, 0x64a, 0x633, 0x64a]] (fun _ => .failed 0) (by decide)
    ⟨[0x645, 0x64a, 0x633, 0x64a], by decide, Or.inl (by decide)⟩

/-- C5: when the local tier finds no match and the backend call (after any
fallback) ends in an error, `validateAnswer` does not propagate it: it
returns `isValid := false` with the fixed service-busy reason. -/
theorem C5_remote_failure_absorbed
    (cardA cardB userAnswer : Str) (possibleAnswers : List Str)
    (respond : Str → CallOutcome RemoteValidation) (e : Nat)
    (tr : List GenEvent)
    (hnolocal : ¬ (possibleAnswers ≠ [] ∧
      localMatch userAnswer possibleAnswers = true))
    (hfail : generateWithFallback respond = (.error e, tr)) :
    validateAnswer cardA cardB userAnswer possibleAnswers respond =
      ({ isValid := false, reason := busyReason, correctAnswer := none },
       tr) := by
  unfold validateAnswer
  rw [if_neg hnolocal, hfail]

theorem C5_remote_failure_absorbed_witness :
    validateAnswer [0x61] [0x62] [0x645] [] (fun _ => .rateLimited 3) =
      ({ isValid := false, reason := busyReason, correctAnswer := none },
       [.call PRIMARY_MODEL, .delayMs 1000, .call FALLBACK_MODEL,
        .delayMs 1000]) :=
  C5_remote_failure_absorbed [0x61] [0x62] [0x645] []
    (fun _ => .rateLimited 3) 3
    [.call PRIMARY_MODEL, .delayMs 1000, .call FALLBACK_MODEL, .delayMs 1000]
    (by simp) rfl

/-- C6: a rate-limited primary call leads to exactly one further call,
against the fallback model, after a 1000 ms delay; a non-rate-limit
primary error is returned immediately with no fallback call. -/
theorem C6_fallback_policy {α : Type} (respond : Str → CallOutcome α) :
    (∀ e, respond PRIMARY_MODEL = .rateLimited e →
      callsOf (generateWithFallback respond).2 =
        [PRIMARY_MODEL, FALLBACK_MODEL]
      ∧ (generateWithFallback respond).2.take 3 =
          [.call PRIMARY_MODEL, .delayMs 1000, .call FALLBACK_MODEL])
    ∧ (∀ e, respond PRIMARY_MODEL = .failed e →
        generateWithFallback respond = (.error e, [.call PRIMARY_MODEL])) := by
  constructor
  · intro e hrl
    unfold generateWithFallback
    rw [hrl]
    cases respond FALLBACK_MODEL <;> simp [callsOf]
  · intro e hf
    unfold generateWithFallback
    rw [hf]

theorem C6_fallback_policy_witness :
    callsOf (generateWithFallback (fun _ => CallOutcome.rateLimited 7 :
        Str → CallOutcome Nat)).2 = [PRIMARY_MODEL, FALLBACK_MODEL]
    ∧ generateWithFallback (fun _ => CallOutcome.failed 9 :
        Str → CallOutcome Nat) =
      (.error 9, [.call PRIMARY_MODEL]) :=
  ⟨((C6_fallback_policy (fun _ => CallOutcome.rateLimited 7)).1 7 rfl).1,
   (C6_fallback_policy (fun _ => CallOutcome.failed 9)).2 9 rfl⟩

/-- C7: a failed initial generation sends LOADING_CHALLENGE back to IDLE
with the retry message and score 0; a failed mid-session generation sends
LOADING_CHALLENGE to GAME_OVER with an error message, preserving the
score. -/
theorem C7_generation_failure_transitions :
    (∀ s s1 s2, Step s .startBegin s1 → Step s1 .startFail s2 →
      s2.gameState.status = .IDLE ∧ s2.gameState.score = 0
      ∧ s2.error = some startErrMsg)
    ∧ (∀ s s', Reachable s → Step s .nextFail s' →
      s.gameState.status = .LOADING_CHALLENGE
      ∧ s'.gameState.status = .GAME_OVER
      ∧ s'.gameState.score = s.gameState.score
      ∧ s'.error = some nextErrMsg) := by
  constructor
  · intro s s1 s2 hb hf
    cases hb
    cases hf
    exact ⟨rfl, rfl, rfl⟩
  · intro s s' hr hstep
    cases hstep with
    | nextFail ex hpend =>
      exact ⟨((reachable_inv hr).2.2.2 _ hpend).1, rfl, rfl, rfl⟩

theorem C7_generation_failure_transitions_witness :
    (sFail.gameState.status = .IDLE ∧ sFail.gameState.score = 0
      ∧ sFail.error = some startErrMsg)
    ∧ (sOver.gameState.status = .GAME_OVER
      ∧ sOver.gameState.score = sLoad2.gameState.score
      ∧ sOver.error = some nextErrMsg) :=
  ⟨⟨(C7_generation_failure_transitions.1 initialState sLoad sFail
      (Step.startBegin initialState (Or.inl rfl))
      (Step.startFail sLoad rfl)).1,
    (C7_generation_failure_transitions.1 initialState sLoad sFail
      (Step.startBegin initialState (Or.inl rfl))
      (Step.startFail sLoad rfl)).2.1,
    (C7_generation_failure_transitions.1 initialState sLoad sFail
      (Step.startBegin initialState (Or.inl rfl))
      (Step.startFail sLoad rfl)).2.2⟩,
   ⟨(C7_generation_failure_transitions.2 sLoad2 sOver reach_sLoad2
      (Step.nextFail sLoad2 sPlay.gameState.seenEntities rfl)).2.1,
    (C7_generation_failure_transitions.2 sLoad2 sOver reach_sLoad2
      (Step.nextFail sLoad2 sPlay.gameState.seenEntities rfl)).2.2.1,
    (C7_generation_failure_transitions.2 sLoad2 sOver reach_sLoad2
      (Step.nextFail sLoad2 sPlay.gameState.seenEntities rfl)).2.2.2⟩⟩

/-- C8: the advance-round transition fires from PLAYING; with a positive
bonus it adds 1 to the score and the bonus to the clock, with bonus 0 it
leaves both unchanged; and the generation request it issues carries the
accumulated `seenEntities`, of which the prompt embeds exactly the
most recent at-most-20 names. -/
theorem C8_advance_round (s s' : AppState) (bonus : Nat)
    (h : Step s (.nextBegin bonus) s') :
    s.gameState.status = .PLAYING
    ∧ (0 < bonus → s'.gameState.score = s.gameState.score + 1
        ∧ s'.gameState.timeLeft = s.gameState.timeLeft + bonus)
    ∧ (bonus = 0 → s'.gameState.score = s.gameState.score
        ∧ s'.gameState.timeLeft = s.gameState.timeLeft)
    ∧ s'.pending = some (.next s.gameState.seenEntities)
    ∧ promptExclusions s.gameState.seenEntities =
        jsSliceLast 20 s.gameState.seenEntities
    ∧ jsSliceLast 20 s.gameState.seenEntities <:+ s.gameState.seenEntities
    ∧ (jsSliceLast 20 s.gameState.seenEntities).length =
        min 20 s.gameState.seenEntities.length := by
  cases h with
  | nextBegin b hs =>
    refine ⟨hs, ?_, ?_, rfl, rfl, ?_, ?_⟩
    · intro hb
      constructor
      · show (if 0 < bonus then s.gameState.score + 1
              else s.gameState.score) = s.gameState.score + 1
        rw [if_pos hb]
      · rfl
    · intro hb
      subst hb
      exact ⟨rfl, rfl⟩
    · exact List.drop_suffix _ _
    · rw [jsSliceLast, List.length_drop]
      omega

def sBonus : AppState :=
  { sPlay with
    error := none,
    pending := some (.next sPlay.gameState.seenEntities),
    gameState := { sPlay.gameState with
                   score := if 0 < 10 then sPlay.gameState.score + 1
                            else sPlay.gameState.score,
                   timeLeft := sPlay.gameState.timeLeft + 10,
                   status := .LOADING_CHALLENGE } }

theorem C8_advance_round_witness :
    sPlay.gameState.status = .PLAYING
    ∧ sBonus.gameState.score = sPlay.gameState.score + 1
    ∧ sBonus.gameState.timeLeft = sPlay.gameState.timeLeft + 10
    ∧ sBonus.pending = some (.next sPlay.gameState.seenEntities) :=
  ⟨(C8_advance_round sPlay sBonus 10 (Step.nextBegin sPlay 10 rfl)).1,
   ((C8_advance_round sPlay sBonus 10 (Step.nextBegin sPlay 10 rfl)).2.1
     (by decide)).1,
   ((C8_advance_round sPlay sBonus 10 (Step.nextBegin sPlay 10 rfl)).2.1
     (by decide)).2,
   (C8_advance_round sPlay sBonus 10 (Step.nextBegin sPlay 10 rfl)).2.2.2.1⟩

/-- C9 fails as stated: the `setDifficulty` handler carries no status
guard, so invoked on a (reachable) PLAYING state it changes the state. -/
theorem C9_counterexample :
    Reachable sPlay ∧ sPlay.gameState.status = .PLAYING
    ∧ setDifficultyFn .HARD sPlay.gameState ≠ sPlay.gameState :=
  ⟨reach_sPlay, rfl, by decide⟩

/-- C9 (amended): the difficulty-selection event is only reachable in
IDLE (the buttons render only there), the handler itself merely rewrites
the difficulty field of whatever state it runs on, and the difficulty
chosen determines the clock at the next start, with MEDIUM giving 60. -/
theorem C9_difficulty_selection :
    (∀ s s' level, Step s (.setDiff level) s' →
      s.gameState.status = .IDLE
      ∧ s' = { s with gameState := setDifficultyFn level s.gameState })
    ∧ (∀ level gs, setDifficultyFn level gs = { gs with difficulty := level })
    ∧ (∀ s s', Step s .startBegin s' →
        s'.gameState.timeLeft = TIME_LIMITS s.gameState.difficulty)
    ∧ TIME_LIMITS .MEDIUM = 60 := by
  refine ⟨?_, fun level gs => rfl, ?_, rfl⟩
  · intro s s' level h
    cases h with
    | setDiff lv hs => exact ⟨hs, rfl⟩
  · intro s s' h
    cases h
    rfl

def sDiff : AppState :=
  { initialState with
    gameState := setDifficultyFn .HARD initialState.gameState }

theorem C9_difficulty_selection_witness :
    initialState.gameState.status = .IDLE
    ∧ sLoad.gameState.timeLeft = TIME_LIMITS initialState.gameState.difficulty :=
  ⟨(C9_difficulty_selection.1 initialState sDiff .HARD
      (Step.setDiff initialState .HARD rfl)).1,
   C9_difficulty_selection.2.2.1 initialState sLoad
     (Step.startBegin initialState (Or.inl rfl))⟩

/-- C10: submitting with an empty-after-trim input, or while a validation
is in flight, is a no-op: no validation call is issued and both the game
state and the screen state are returned unchanged. -/
theorem C10_submit_noop (gs : GameState) (challenge : Challenge)
    (ss : ScreenState)
    (h : jsTrim ss.input = [] ∨ ss.validating = true) :
    handleSubmit gs challenge ss = (gs, ss, none) := by
  unfold handleSubmit
  rw [if_pos h]

theorem C10_submit_noop_witness :
    handleSubmit sPlay.gameState chTest
      { input := [0x20, 0x9], validating := false,
        feedbackSuccess := none, feedbackMsg := [] } =
      (sPlay.gameState,
       { input := [0x20, 0x9], validating := false,
         feedbackSuccess := none, feedbackMsg := [] }, none) :=
  C10_submit_noop sPlay.gameState chTest
    { input := [0x20, 0x9], validating := false,
      feedbackSuccess := none, feedbackMsg := [] }
    (Or.inl (by decide))
